import Mathlib

/-!
Shallow embedding of the MPC control-loop front end in `src/src/main.cpp`
(apalvai/CarND-MPC-Project).  Pure helper functions of the file are embedded
directly; the telemetry handler of `main` is embedded as explicit data flow.
The two numeric solves that live outside this file — Eigen's Householder QR
(`A.householderQr().solve`, a third-party library call) and `MPC::Solve`
(declared in `MPC.h`, whose implementation is not part of the sources here) —
are carried as explicit function parameters, so that every piece of control
flow that *is* in `main.cpp` (assertions, branches, message assembly) is
modelled exactly.
-/

/-- `deg2rad` from main.cpp line 17: `x * pi() / 180`. -/
noncomputable def deg2rad (x : ℝ) : ℝ := x * Real.pi / 180

/-- Wheelbase constant `Lf = 2.67` from main.cpp line 137. -/
noncomputable def Lf : ℝ := 2.67

/-- C's truncation toward zero, used by `fmod`: `trunc(x)` is `floor x` for
nonnegative `x` and `ceil x` for negative `x`. -/
noncomputable def truncToZero (x : ℝ) : ℤ := if 0 ≤ x then Int.floor x else Int.ceil x

/-- C library `fmod(x, y) = x - trunc(x / y) * y` (result has the sign of `x`);
main.cpp line 163 applies it with `y = 1.0` to the solver's throttle output. -/
noncomputable def fmod (x y : ℝ) : ℝ := x - (truncToZero (x / y) : ℝ) * y

/-- `polyeval` from main.cpp lines 36-42: Horner-free evaluation
`result += coeffs[i] * pow(x, i)` over all coefficient indices. -/
noncomputable def polyeval (coeffs : List ℝ) (x : ℝ) : ℝ :=
  ∑ i ∈ Finset.range coeffs.length, coeffs.getD i 0 * x ^ i

/-- Modelled from the spec: the first derivative of the fitted reference
polynomial, evaluated at `x` (spec 4.3 uses `polynomial'(0)`; main.cpp reads
`coeffs[1]` directly, and the two are compared in the C1 theorem). -/
noncomputable def specPolyDerivEval (coeffs : List ℝ) (x : ℝ) : ℝ :=
  ∑ i ∈ Finset.range coeffs.length, (i : ℝ) * coeffs.getD i 0 * x ^ (i - 1)

/-- Row `j` of the Vandermonde matrix built in polyfit, main.cpp lines 53-61:
`A(j,0) = 1` and `A(j,i+1) = A(j,i) * x_j`, i.e. `[1, x_j, x_j^2, ..., x_j^order]`. -/
noncomputable def vandermondeRow (xj : ℝ) (order : ℕ) : List ℝ :=
  (List.range (order + 1)).map (fun i => xj ^ i)

/-- The full Vandermonde matrix `A` of polyfit (one row per sample). -/
noncomputable def vandermonde (xvals : List ℝ) (order : ℕ) : List (List ℝ) :=
  xvals.map (fun xj => vandermondeRow xj order)

/-- `polyfit` from main.cpp lines 47-66.  Its only failure points are the two
`assert` statements (`xvals.size() == yvals.size()` and
`order >= 1 && order <= xvals.size() - 1`, evaluated in signed arithmetic, so
`order + 1 ≤ size` in ℕ); a failed C `assert` aborts, modelled as `none`.
After the assertions the function unconditionally returns the QR solve of the
Vandermonde system.  The numeric solve `A.householderQr().solve(yvals)` is
Eigen library code, carried here as the parameter `qrSolve`; note that no
branch of the function inspects it or the samples for rank deficiency. -/
noncomputable def polyfit (qrSolve : List (List ℝ) → List ℝ → List ℝ)
    (xvals yvals : List ℝ) (order : ℕ) : Option (List ℝ) :=
  if xvals.length = yvals.length ∧ 1 ≤ order ∧ order + 1 ≤ xvals.length then
    some (qrSolve (vandermonde xvals order) yvals)
  else none

/-- `convertToCoordinates` from main.cpp lines 68-81: per waypoint
`(wx, wy)`, local x = `cos(psi) * (wx - x) + sin(psi) * (wy - y)` and local
y = `-sin(psi) * (wx - x) + cos(psi) * (wy - y)`.  The C++ function asserts
equal input sizes; the recursion consumes both lists in lockstep. -/
noncomputable def convertToCoordinates (x y psi : ℝ) : List ℝ → List ℝ → List (ℝ × ℝ)
  | wx :: tx, wy :: ty =>
      (Real.cos psi * (wx - x) + Real.sin psi * (wy - y),
       -Real.sin psi * (wx - x) + Real.cos psi * (wy - y)) ::
        convertToCoordinates x y psi tx ty
  | _, _ => []

/-- Modelled from the spec: the inverse of the local-frame transform (rotate
by `+psi`, translate by `+(x, y)`), used only to state the round-trip
property of spec section 8. -/
noncomputable def inverseTransform (x y psi : ℝ) (pts : List (ℝ × ℝ)) : List (ℝ × ℝ) :=
  pts.map (fun p =>
    (x + Real.cos psi * p.1 - Real.sin psi * p.2,
     y + Real.sin psi * p.1 + Real.cos psi * p.2))

/-- Modelled from the spec: saturation of a value to the interval `[-1, 1]`,
the postprocessing the spec claims for the throttle channel. -/
noncomputable def clampUnit (t : ℝ) : ℝ := max (-1) (min 1 t)

/-- Euclidean distance between two points of the plane. -/
noncomputable def euclideanDist (p q : ℝ × ℝ) : ℝ :=
  Real.sqrt ((p.1 - q.1) ^ 2 + (p.2 - q.2) ^ 2)

/-- The six-component vehicle state vector of main.cpp lines 148-149,
`state << px_actual, py_actual, psi_actual, v_actual, cte_actual, epsi_actual`. -/
structure VState where
  x : ℝ
  y : ℝ
  psi : ℝ
  v : ℝ
  cte : ℝ
  epsi : ℝ

/-- The telemetry handler's latency-compensated state, main.cpp lines 130-149:
`cte = coeffs[0]`, `epsi = -atan(coeffs[1])`, then one kinematic-bicycle step
of size `dt` with the last commanded steering and throttle. -/
noncomputable def telemetryState (coeffs : List ℝ) (v steering_angle throttle dt : ℝ) : VState :=
  let cte := coeffs.getD 0 0
  let epsi := -Real.arctan (coeffs.getD 1 0)
  let psi_actual := -v * steering_angle * dt / Lf
  { x := v * dt
    y := 0
    psi := psi_actual
    v := v + throttle * dt
    cte := cte + v * Real.sin epsi * dt
    epsi := epsi + psi_actual }

/-- The measured local-frame state at the telemetry instant: the vehicle is
at the origin of its own frame (`x = y = psi = 0`, spec 4.3), with `cte` and
`epsi` read off the fitted polynomial as in main.cpp lines 130-134. -/
noncomputable def measuredState (coeffs : List ℝ) (v : ℝ) : VState :=
  { x := 0
    y := 0
    psi := 0
    v := v
    cte := coeffs.getD 0 0
    epsi := -Real.arctan (coeffs.getD 1 0) }

/-- The fields of the outbound `steer` JSON message, main.cpp lines 159-189. -/
structure SteerMsg where
  steering_angle : ℝ
  throttle : ℝ
  mpc_x : List ℝ
  mpc_y : List ℝ
  next_x : List ℝ
  next_y : List ℝ

/-- Assembly of the outbound `steer` message from the solver output,
main.cpp lines 156-189: `steer_value = solution[6] / deg2rad(25)` (negated on
send), `throttle_value = fmod(solution[7], 1.0)`, `mpc_x/y` receive exactly
the single point `(solution[0], solution[1])`, and `next_x/y` are created
empty and never filled. -/
noncomputable def buildSteerMsg (solution : List ℝ) : SteerMsg :=
  let steer_value := solution.getD 6 0 / deg2rad 25
  let throttle_value := fmod (solution.getD 7 0) 1
  { steering_angle := -steer_value
    throttle := throttle_value
    mpc_x := [solution.getD 0 0]
    mpc_y := [solution.getD 1 0]
    next_x := []
    next_y := [] }

/-- One telemetry cycle of the handler, main.cpp lines 101-204, after JSON
field extraction: transform the waypoints, fit a degree-3 polynomial, build
the latency-compensated state, call `MPC::Solve` (the parameter `mpcSolve`,
whose implementation is not among the sources), and assemble the message.
The equal-size assertion of `convertToCoordinates` (line 70) and both
assertions of `polyfit` are modelled as `none` (a C `assert` aborts the
process; no message is produced).  `dt` is `mpc.getTimeInterval()`
(declared in `MPC.h`), carried as a parameter. -/
noncomputable def processTelemetry (qrSolve : List (List ℝ) → List ℝ → List ℝ)
    (mpcSolve : VState → List ℝ → List ℝ)
    (ptsx ptsy : List ℝ) (px py psi v steering_angle throttle dt : ℝ) :
    Option SteerMsg :=
  if ptsx.length = ptsy.length then
    let pathpoints := convertToCoordinates px py psi ptsx ptsy
    let xvals := pathpoints.map Prod.fst
    let yvals := pathpoints.map Prod.snd
    match polyfit qrSolve xvals yvals 3 with
    | none => none
    | some coeffs =>
        some (buildSteerMsg
          (mpcSolve (telemetryState coeffs v steering_angle throttle dt) coeffs))
  else none

/-- `string::find` of C++: first index at which `pat` occurs in `s`
(`none` models `string::npos`). -/
def strFind (s pat : List Char) : Option ℕ :=
  (List.range (s.length + 1)).find? (fun i => pat.isPrefixOf (s.drop i))

/-- `string::rfind` of C++: last index at which `pat` occurs in `s`. -/
def strRfind (s pat : List Char) : Option ℕ :=
  ((List.range (s.length + 1)).filter (fun i => pat.isPrefixOf (s.drop i))).getLast?

/-- `hasData` from main.cpp lines 23-33: if the message contains `"null"`
anywhere, return the empty string; otherwise cut from the first `[` through
the last occurrence of the two-character closer (`substr(b1, b2 - b1 + 2)`,
whose length argument is computed in 64-bit unsigned arithmetic). -/
def hasData (s : List Char) : List Char :=
  match strFind s ("null").data with
  | some _ => []
  | none =>
      match s.findIdx? (fun c => c == '['), strRfind s ("\x7d]").data with
      | some b1, some b2 =>
          (s.drop b1).take ((((b2 : ℤ) - (b1 : ℤ) + 2) % 2 ^ 64).toNat)
      | _, _ => []

/-- The three ways the `onMessage` handler answers a frame. -/
inductive FrameAction where
  | telemetryProcess (payload : List Char)
  | manualAck
  | ignore

/-- The literal manual-driving acknowledgement of main.cpp line 208. -/
def manualMsg : List Char := ("42[\"manual\",\x7b\x7d]").data

/-- Frame dispatch of the `onMessage` handler, main.cpp lines 94-211: only
frames longer than two characters starting with `42` are considered; a
nonempty `hasData` result goes to telemetry processing, an empty one is
answered with `manualMsg`. -/
def classifyFrame (sdata : List Char) : FrameAction :=
  if 2 < sdata.length ∧ sdata.take 2 = ("42").data then
    (if hasData sdata = [] then FrameAction.manualAck
     else FrameAction.telemetryProcess (hasData sdata))
  else FrameAction.ignore

/-! Helper lemmas shared by the claim theorems. -/

theorem polyeval_at_zero (coeffs : List ℝ) : polyeval coeffs 0 = coeffs.getD 0 0 := by
  cases coeffs with
  | nil => simp [polyeval]
  | cons c t => simp [polyeval, Finset.sum_range_succ', pow_succ]

theorem specPolyDerivEval_at_zero (coeffs : List ℝ) :
    specPolyDerivEval coeffs 0 = coeffs.getD 1 0 := by
  match coeffs with
  | [] => simp [specPolyDerivEval]
  | [c] => simp [specPolyDerivEval]
  | c :: d :: t => simp [specPolyDerivEval, Finset.sum_range_succ', pow_succ]

theorem polyeval_hasDerivAt (coeffs : List ℝ) (x : ℝ) :
    HasDerivAt (fun t => polyeval coeffs t) (specPolyDerivEval coeffs x) x := by
  have h : ∀ i ∈ Finset.range coeffs.length,
      HasDerivAt (fun t : ℝ => coeffs.getD i 0 * t ^ i)
        ((i : ℝ) * coeffs.getD i 0 * x ^ (i - 1)) x := by
    intro i _
    have hp := (hasDerivAt_pow i x).const_mul (coeffs.getD i 0)
    convert hp using 1
    ring
  have hs := HasDerivAt.sum h
  simpa [polyeval, specPolyDerivEval] using hs

theorem convert_length (x y psi : ℝ) (ptsx ptsy : List ℝ)
    (hlen : ptsx.length = ptsy.length) :
    (convertToCoordinates x y psi ptsx ptsy).length = ptsx.length := by
  induction ptsx generalizing ptsy with
  | nil =>
      cases ptsy with
      | nil => simp [convertToCoordinates]
      | cons b tb => simp at hlen
  | cons a ta ih =>
      cases ptsy with
      | nil => simp at hlen
      | cons b tb =>
          simp only [convertToCoordinates, List.length_cons]
          rw [ih tb (by simpa using hlen)]

theorem convert_getD (x y psi : ℝ) (ptsx ptsy : List ℝ)
    (hlen : ptsx.length = ptsy.length) (i : ℕ) (hi : i < ptsx.length) :
    (convertToCoordinates x y psi ptsx ptsy).getD i (0, 0) =
      (Real.cos psi * (ptsx.getD i 0 - x) + Real.sin psi * (ptsy.getD i 0 - y),
       -Real.sin psi * (ptsx.getD i 0 - x) + Real.cos psi * (ptsy.getD i 0 - y)) := by
  induction ptsx generalizing ptsy i with
  | nil => exact absurd hi (Nat.not_lt_zero i)
  | cons a ta ih =>
      cases ptsy with
      | nil => simp at hlen
      | cons b tb =>
          cases i with
          | zero => simp [convertToCoordinates]
          | succ n =>
              simp only [convertToCoordinates, List.getD_cons_succ]
              exact ih tb (by simpa using hlen) n (by simpa using hi)

/-! Claim theorems. -/

/-- C1: for every telemetry cycle, the state handed to the optimizer
(`telemetryState`, the first argument of `mpcSolve` in `processTelemetry`)
is the measured state forward-simulated by one latency interval `dt` under
the kinematic bicycle model — x' = v*dt, y' = 0,
heading' = -v*steer*dt/Lf, v' = v + throttle*dt,
cte' = cte + v*sin(epsi)*dt, epsi' = epsi + heading' — where
cte = polynomial(0) and epsi = -atan(polynomial'(0)) of the fitted
reference polynomial (`specPolyDerivEval coeffs 0` is its exact derivative
at 0, witnessed by the `HasDerivAt` conjunct). -/
theorem latency_state_matches_bicycle_model
    (coeffs : List ℝ) (v steer throttle dt : ℝ) :
    telemetryState coeffs v steer throttle dt =
      { x := v * dt
        y := 0
        psi := -v * steer * dt / Lf
        v := v + throttle * dt
        cte := polyeval coeffs 0 +
          v * Real.sin (-Real.arctan (specPolyDerivEval coeffs 0)) * dt
        epsi := -Real.arctan (specPolyDerivEval coeffs 0) +
          -v * steer * dt / Lf } ∧
    HasDerivAt (fun t => polyeval coeffs t) (specPolyDerivEval coeffs 0) 0 := by
  refine ⟨?_, polyeval_hasDerivAt coeffs 0⟩
  simp [telemetryState, polyeval_at_zero, specPolyDerivEval_at_zero]

/-- C2: for every pose `(x, y, psi)` and every waypoint of the input set,
the frame transform returns exactly
local_x = cos(psi)*(wx - x) + sin(psi)*(wy - y) and
local_y = -sin(psi)*(wx - x) + cos(psi)*(wy - y), point by point in order
(the output has one point per input waypoint, at the same index). -/
theorem convert_point_formula (x y psi : ℝ) (ptsx ptsy : List ℝ)
    (hlen : ptsx.length = ptsy.length) (i : ℕ) (hi : i < ptsx.length) :
    (convertToCoordinates x y psi ptsx ptsy).getD i (0, 0) =
      (Real.cos psi * (ptsx.getD i 0 - x) + Real.sin psi * (ptsy.getD i 0 - y),
       -Real.sin psi * (ptsx.getD i 0 - x) + Real.cos psi * (ptsy.getD i 0 - y)) ∧
    (convertToCoordinates x y psi ptsx ptsy).length = ptsx.length :=
  ⟨convert_getD x y psi ptsx ptsy hlen i hi, convert_length x y psi ptsx ptsy hlen⟩

theorem convert_point_formula_witness :
    (convertToCoordinates 1 2 3 [4, 5] [6, 7]).getD 0 (0, 0) =
      (Real.cos 3 * (([4, 5] : List ℝ).getD 0 0 - 1) +
        Real.sin 3 * (([6, 7] : List ℝ).getD 0 0 - 2),
       -Real.sin 3 * (([4, 5] : List ℝ).getD 0 0 - 1) +
        Real.cos 3 * (([6, 7] : List ℝ).getD 0 0 - 2)) ∧
    (convertToCoordinates 1 2 3 [4, 5] [6, 7]).length = ([4, 5] : List ℝ).length :=
  convert_point_formula 1 2 3 [4, 5] [6, 7] rfl 0 (by decide)

/-- C8: latency compensation applied with steer = 0, throttle = 0 and dt = 0
is the identity — the produced state's x, y, heading, speed, cte and epsi all
equal those of the measured input state (vehicle at its own local origin,
cte and epsi read off the fitted polynomial). -/
theorem latency_identity_at_zero (coeffs : List ℝ) (v : ℝ) :
    telemetryState coeffs v 0 0 0 = measuredState coeffs v := by
  simp [telemetryState, measuredState]

/-- C7: for every pose and every waypoint set (equal-length x and y arrays,
as the C++ assertion requires), transforming into the vehicle-local frame and
then applying the inverse transform of the same pose reproduces the waypoint
set exactly. -/
theorem transform_roundtrip (x y psi : ℝ) (ptsx ptsy : List ℝ)
    (hlen : ptsx.length = ptsy.length) :
    inverseTransform x y psi (convertToCoordinates x y psi ptsx ptsy) =
      ptsx.zip ptsy := by
  induction ptsx generalizing ptsy with
  | nil =>
      cases ptsy with
      | nil => simp [convertToCoordinates, inverseTransform]
      | cons b tb => simp at hlen
  | cons a ta ih =>
      cases ptsy with
      | nil => simp at hlen
      | cons b tb =>
          simp only [convertToCoordinates, inverseTransform, List.map_cons,
            List.zip_cons_cons, List.cons.injEq]
          refine ⟨?_, ih tb (by simpa using hlen)⟩
          refine Prod.ext ?_ ?_
          · show x + Real.cos psi * (Real.cos psi * (a - x) + Real.sin psi * (b - y)) -
              Real.sin psi * (-Real.sin psi * (a - x) + Real.cos psi * (b - y)) = a
            linear_combination (a - x) * Real.sin_sq_add_cos_sq psi
          · show y + Real.sin psi * (Real.cos psi * (a - x) + Real.sin psi * (b - y)) +
              Real.cos psi * (-Real.sin psi * (a - x) + Real.cos psi * (b - y)) = b
            linear_combination (b - y) * Real.sin_sq_add_cos_sq psi

theorem transform_roundtrip_witness :
    inverseTransform 1 2 3 (convertToCoordinates 1 2 3 [4, 5] [6, 7]) =
      ([4, 5] : List ℝ).zip [6, 7] :=
  transform_roundtrip 1 2 3 [4, 5] [6, 7] rfl

/-- C10: for every pose and every pair of indices into the waypoint set, the
frame transform preserves the Euclidean distance between the two transformed
points — it is a rigid isometry of the plane. -/
theorem transform_preserves_distance (x y psi : ℝ) (ptsx ptsy : List ℝ)
    (hlen : ptsx.length = ptsy.length) (i j : ℕ)
    (hi : i < ptsx.length) (hj : j < ptsx.length) :
    euclideanDist ((convertToCoordinates x y psi ptsx ptsy).getD i (0, 0))
        ((convertToCoordinates x y psi ptsx ptsy).getD j (0, 0)) =
      euclideanDist (ptsx.getD i 0, ptsy.getD i 0)
        (ptsx.getD j 0, ptsy.getD j 0) := by
  rw [convert_getD x y psi ptsx ptsy hlen i hi,
    convert_getD x y psi ptsx ptsy hlen j hj]
  unfold euclideanDist
  congr 1
  simp only
  linear_combination
    ((ptsx.getD i 0 - ptsx.getD j 0) ^ 2 + (ptsy.getD i 0 - ptsy.getD j 0) ^ 2) *
      Real.sin_sq_add_cos_sq psi

theorem transform_preserves_distance_witness :
    euclideanDist ((convertToCoordinates 0 0 1 [1, 2] [3, 4]).getD 0 (0, 0))
        ((convertToCoordinates 0 0 1 [1, 2] [3, 4]).getD 1 (0, 0)) =
      euclideanDist (([1, 2] : List ℝ).getD 0 0, ([3, 4] : List ℝ).getD 0 0)
        (([1, 2] : List ℝ).getD 1 0, ([3, 4] : List ℝ).getD 1 0) :=
  transform_preserves_distance 0 0 1 [1, 2] [3, 4] rfl 0 1 (by decide) (by decide)

/-- C3 counterexample: the outbound throttle is `fmod(t, 1.0)`, not a
saturation — at solver throttle `t = 3/2` the message carries `1/2`, while
saturating to `[-1, 1]` would give `1`. -/
theorem throttle_not_saturated :
    (buildSteerMsg [0, 0, 0, 0, 0, 0, 0, (3 : ℝ) / 2]).throttle = 1 / 2 ∧
    clampUnit ((3 : ℝ) / 2) = 1 ∧
    (buildSteerMsg [0, 0, 0, 0, 0, 0, 0, (3 : ℝ) / 2]).throttle ≠
      clampUnit ((3 : ℝ) / 2) := by
  have hf : Int.floor ((3 : ℝ) / 2) = 1 := by
    rw [Int.floor_eq_iff]
    norm_num
  have hc : clampUnit ((3 : ℝ) / 2) = 1 := by
    rw [clampUnit]
    rw [min_eq_left (by norm_num : (1 : ℝ) ≤ 3 / 2)]
    rw [max_eq_right (by norm_num : (-1 : ℝ) ≤ 1)]
  have ht : (buildSteerMsg [0, 0, 0, 0, 0, 0, 0, (3 : ℝ) / 2]).throttle = 1 / 2 := by
    simp only [buildSteerMsg, fmod, truncToZero, List.getD_cons_succ,
      List.getD_cons_zero, div_one]
    rw [if_pos (by norm_num : (0 : ℝ) ≤ 3 / 2), hf]
    norm_num
  refine ⟨ht, hc, ?_⟩
  rw [ht, hc]
  norm_num

/-- C3 amended: the throttle placed in the outbound message is
`fmod(t, 1.0)` of the solver throttle `t`; this coincides with `t` (and with
saturation) whenever `-1 < t < 1`, but wraps instead of saturating outside
that interval. -/
theorem throttle_fmod_passthrough (solution : List ℝ)
    (h1 : -1 < solution.getD 7 0) (h2 : solution.getD 7 0 < 1) :
    (buildSteerMsg solution).throttle = solution.getD 7 0 := by
  have ht : truncToZero (solution.getD 7 0 / 1) = 0 := by
    rw [div_one, truncToZero]
    by_cases h : 0 ≤ solution.getD 7 0
    · rw [if_pos h]
      exact Int.floor_eq_zero_iff.mpr ⟨h, h2⟩
    · rw [if_neg h]
      push_neg at h
      exact Int.ceil_eq_zero_iff.mpr ⟨h1, le_of_lt h⟩
  simp only [buildSteerMsg, fmod]
  rw [ht]
  norm_num

theorem throttle_fmod_passthrough_witness :
    (buildSteerMsg [0, 0, 0, 0, 0, 0, 0, (1 : ℝ) / 2]).throttle =
      ([0, 0, 0, 0, 0, 0, 0, (1 : ℝ) / 2] : List ℝ).getD 7 0 :=
  throttle_fmod_passthrough [0, 0, 0, 0, 0, 0, 0, (1 : ℝ) / 2]
    (by norm_num) (by norm_num)

/-- C4 counterexample: a sample set whose x values are all identical
(`List.replicate 4 0`) passes both of polyfit's assertions and the function
returns the QR solve result — it does not fail with any DegenerateFit. -/
theorem polyfit_returns_on_identical_x :
    (polyfit (fun _ _ => []) (List.replicate 4 (0 : ℝ)) [1, 2, 3, 4] 3).isSome =
      true := by
  simp [polyfit]

/-- C4 amended: polyfit performs no distinctness or rank check at all — for
any QR backend and any samples passing its two size assertions (equal counts
and at least `order + 1 = 4` samples), including samples whose x values are
all identical, it returns a fitted value; no DegenerateFit failure exists in
the code. -/
theorem polyfit_no_degeneracy_check (qrSolve : List (List ℝ) → List ℝ → List ℝ)
    (xvals yvals : List ℝ) (hlen : xvals.length = yvals.length)
    (hn : 4 ≤ xvals.length) :
    (polyfit qrSolve xvals yvals 3).isSome = true := by
  rw [polyfit, if_pos ⟨hlen, by norm_num, by omega⟩]
  rfl

theorem polyfit_no_degeneracy_check_witness :
    (polyfit (fun _ _ => []) (List.replicate 4 (2 : ℝ))
      (List.replicate 4 (5 : ℝ)) 3).isSome = true :=
  polyfit_no_degeneracy_check (fun _ _ => []) (List.replicate 4 (2 : ℝ))
    (List.replicate 4 (5 : ℝ)) (by simp) (by simp)

/-- C5 counterexample: for a concrete solver output the outbound message's
reference-curve lists are empty and its predicted-trajectory list holds a
single point — not the full predicted trajectory and reference samples the
claim requires. -/
theorem steer_msg_missing_trajectories :
    (buildSteerMsg [10, 11, 12, 13, 14, 15, 16, (17 : ℝ)]).next_x = [] ∧
    (buildSteerMsg [10, 11, 12, 13, 14, 15, 16, (17 : ℝ)]).next_y = [] ∧
    (buildSteerMsg [10, 11, 12, 13, 14, 15, 16, (17 : ℝ)]).mpc_x.length = 1 := by
  refine ⟨rfl, rfl, rfl⟩

/-- C5 amended: every outbound steer message carries exactly one predicted
point, `(solution[0], solution[1])`, as the displayed MPC trajectory, and
empty reference-curve sample lists. -/
theorem steer_msg_single_point_empty_reference (solution : List ℝ) :
    (buildSteerMsg solution).mpc_x = [solution.getD 0 0] ∧
    (buildSteerMsg solution).mpc_y = [solution.getD 1 0] ∧
    (buildSteerMsg solution).next_x = [] ∧
    (buildSteerMsg solution).next_y = [] := by
  refine ⟨rfl, rfl, rfl, rfl⟩

/-- C6 counterexample: a telemetry cycle with a single waypoint produces no
outbound message at all (polyfit's order assertion fails, which in the C++
binary aborts the process) — no InsufficientWaypoints error is raised and no
last-known-good actuation is emitted. -/
theorem one_waypoint_cycle_emits_nothing :
    processTelemetry (fun _ _ => [0]) (fun _ _ => [0]) [1] [2]
      0 0 0 0 0 0 0 = none := by
  simp [processTelemetry, convertToCoordinates, polyfit]

/-- C6 amended: for every waypoint set with fewer than 4 points (hence in
particular fewer than 2), the cycle dies at polyfit's assertion
`order <= size - 1`: the model yields `none` (the C++ `assert` aborts the
process), no message is emitted, and no InsufficientWaypoints error or
last-known-good fallback exists anywhere in the code. -/
theorem few_waypoints_abort_no_fallback
    (qrSolve : List (List ℝ) → List ℝ → List ℝ)
    (mpcSolve : VState → List ℝ → List ℝ) (ptsx ptsy : List ℝ)
    (px py psi v steering_angle throttle dt : ℝ)
    (hlen : ptsx.length = ptsy.length) (hfew : ptsx.length < 4) :
    processTelemetry qrSolve mpcSolve ptsx ptsy
      px py psi v steering_angle throttle dt = none := by
  have hc : (convertToCoordinates px py psi ptsx ptsy).length = ptsx.length :=
    convert_length px py psi ptsx ptsy hlen
  have hp : polyfit qrSolve
      ((convertToCoordinates px py psi ptsx ptsy).map Prod.fst)
      ((convertToCoordinates px py psi ptsx ptsy).map Prod.snd) 3 = none := by
    rw [polyfit, if_neg]
    rintro ⟨-, -, h4⟩
    rw [List.length_map, hc] at h4
    omega
  rw [processTelemetry, if_pos hlen]
  simp only [hp]

theorem few_waypoints_abort_no_fallback_witness :
    processTelemetry (fun _ _ => [3]) (fun _ _ => [4]) [5] [6]
      1 1 1 1 1 1 1 = none :=
  few_waypoints_abort_no_fallback (fun _ _ => [3]) (fun _ _ => [4]) [5] [6]
    1 1 1 1 1 1 1 rfl (by decide)

/-- C9: for every inbound frame whose text contains the substring `null`
anywhere, `hasData` returns the empty string, so any event frame (longer
than two characters and starting with `42`) is answered with the
manual-driving acknowledgement — even if the frame also contains a
well-formed telemetry payload. -/
theorem null_substring_yields_manual_ack (sdata : List Char)
    (hnull : (strFind sdata ("null").data).isSome = true)
    (hframe : 2 < sdata.length) (hpre : sdata.take 2 = ("42").data) :
    hasData sdata = [] ∧ classifyFrame sdata = FrameAction.manualAck := by
  obtain ⟨k, hk⟩ := Option.isSome_iff_exists.mp hnull
  have hempty : hasData sdata = [] := by
    rw [hasData, hk]
  refine ⟨hempty, ?_⟩
  rw [classifyFrame, if_pos ⟨hframe, hpre⟩, if_pos hempty]

theorem null_substring_yields_manual_ack_witness :
    hasData ("42[\"telemetry\",\x7b\"x\":null\x7d]").data = [] ∧
    classifyFrame ("42[\"telemetry\",\x7b\"x\":null\x7d]").data =
      FrameAction.manualAck :=
  null_substring_yields_manual_ack ("42[\"telemetry\",\x7b\"x\":null\x7d]").data
    (by decide) (by decide) (by decide)
